import Mathlib

/-!
Shallow embedding of the task/project domain logic of the taskflow-pro
repository: the Task and Project mongoose models (src/backend/models/Task.js,
the Project and User schemas), the task-update and member-removal route
handlers (src/backend/routes/tasks.js, src/backend/routes/projects.js) and
the dashboard statistics computation (src/backend/routes/auth.js).

Modelling conventions:
- ObjectId values and timestamps are Nat.
- JavaScript number fields that only ever hold integer percentages are Nat
  (Task.progress) or Int (Project.progress, whose pre-save hook compares
  against 0 from below).
- Math.round over a nonnegative quotient is modelled exactly on rationals
  as round-half-up (jsRound); the claims exercised here do not probe
  floating-point tie corner cases.
- mongoose isModified("status") is modelled as an explicit Boolean flag on
  the save operation; document save runs the pre("save") middleware, while
  findByIdAndUpdate writes fields directly and runs no save middleware
  (mongoose default semantics, relied on by both route handlers and by the
  Task post("save") hook's Project.findByIdAndUpdate call).
- Schema fields not read or written by the verified operations (titles,
  labels, attachments, comments, dates, hours, colors, tags, settings) are
  omitted from the records, except Subtask.title which the subtask methods
  carry along.
-/

namespace TaskFlow

/-- Task status enum from the Task schema. -/
inductive TaskStatus where
  | todo
  | inProgress
  | inReview
  | completed
  | cancelled
deriving DecidableEq, Repr

/-- Project status enum from the Project schema. -/
inductive ProjectStatus where
  | planning
  | active
  | onHold
  | completed
  | archived
deriving DecidableEq, Repr

/-- Member role enum from the Project schema members sub-document. -/
inductive Role where
  | owner
  | admin
  | member
  | viewer
deriving DecidableEq, Repr

/-- Subtask sub-document of the Task schema. -/
structure Subtask where
  title : String
  isCompleted : Bool
  createdAt : Nat
deriving DecidableEq, Repr

/-- Members sub-document of the Project schema. -/
structure Member where
  user : Nat
  role : Role
  joinedAt : Nat
deriving DecidableEq, Repr

/-- Project document (fields used by the verified operations). -/
structure Project where
  owner : Nat
  members : List Member
  status : ProjectStatus
  progress : Int
deriving DecidableEq, Repr

/-- Task document (fields used by the verified operations). -/
structure Task where
  project : Nat
  creator : Nat
  assignee : Option Nat
  status : TaskStatus
  progress : Nat
  subtasks : List Subtask
  completedAt : Option Nat
  startedAt : Option Nat
deriving DecidableEq, Repr

/-- Math.round (num / den) for nonnegative integer num, den: round half
up, computed as a Nat floor division. -/
def jsRound (num den : Nat) : Nat :=
  (2 * num + den) / (2 * den)

/-- Virtual completedSubtasksCount of the Task schema:
subtasks.filter(isCompleted).length. -/
def Task.completedSubtasksCount (t : Task) : Nat :=
  (t.subtasks.filter (·.isCompleted)).length

/-- Virtual subtasksProgress of the Task schema: 100 when the subtask list
is empty, else Math.round((completedSubtasksCount / subtasks.length) * 100). -/
def Task.subtasksProgress (t : Task) : Nat :=
  if t.subtasks.length = 0 then 100
  else jsRound (t.completedSubtasksCount * 100) t.subtasks.length

/-- TaskSchema.pre("save") middleware. statusModified models
this.isModified("status"); now models new Date(). First block: on a status
modification, a completed status with unset completedAt stamps completedAt
and sets progress to 100, else an in-progress status with unset startedAt
stamps startedAt. Second block (unconditional): completed forces progress
100, todo forces progress 0. -/
def Task.preSave (now : Nat) (statusModified : Bool) (t : Task) : Task :=
  let t1 :=
    if statusModified then
      if t.status = .completed ∧ t.completedAt = none then
        { t with completedAt := some now, progress := 100 }
      else if t.status = .inProgress ∧ t.startedAt = none then
        { t with startedAt := some now }
      else t
    else t
  if t1.status = .completed then { t1 with progress := 100 }
  else if t1.status = .todo then { t1 with progress := 0 }
  else t1

/-- TaskSchema.methods.updateProgressFromSubtasks: when the subtask list is
non-empty, assign progress := subtasksProgress; then this.save() runs the
pre-save middleware. -/
def Task.updateProgressFromSubtasks (now : Nat) (statusModified : Bool)
    (t : Task) : Task :=
  let t1 :=
    if t.subtasks.length > 0 then { t with progress := t.subtasksProgress }
    else t
  Task.preSave now statusModified t1

/-- One document-save event for a Task: the caller optionally assigns the
status field (marking it modified, as mongoose isModified reports) and the
save runs the pre-save middleware at time now. -/
structure SaveEvent where
  setStatus : Option TaskStatus
  now : Nat
deriving DecidableEq, Repr

/-- Apply one save event: write the status field when the event carries
one, then run TaskSchema.pre("save") with the matching isModified flag. -/
def Task.applySave (t : Task) (e : SaveEvent) : Task :=
  match e.setStatus with
  | some s => Task.preSave e.now true { t with status := s }
  | none => Task.preSave e.now false t

/-- TaskSchema.post("save") middleware, effect on the parent project:
Task.find({project}) yields the project's stored (hence non-deleted) tasks;
when at least one exists, Project.findByIdAndUpdate writes
progress := Math.round(totalProgress / tasks.length). findByIdAndUpdate
runs no save middleware, so only the progress field changes. -/
def taskPostSave (tasks : List Task) (p : Project) : Project :=
  if tasks.length > 0 then
    { p with
      progress := (jsRound (tasks.map Task.progress).sum tasks.length : Int) }
  else p

/-- ProjectSchema.methods.isMember: true when the user appears in the
members list or is the owner. -/
def Project.isMember (p : Project) (userId : Nat) : Bool :=
  p.members.any (fun m => m.user == userId) || p.owner == userId

/-- ProjectSchema.methods.getUserRole: owner match yields owner, else the
role of the matching members entry, else none. -/
def Project.getUserRole (p : Project) (userId : Nat) : Option Role :=
  if p.owner = userId then some .owner
  else (p.members.find? (fun m => m.user == userId)).map (·.role)

/-- ProjectSchema.pre("save") middleware: clamp progress into [0, 100],
then auto-promote status: progress 100 and not completed becomes completed,
else positive progress while planning becomes active. -/
def Project.preSave (p : Project) : Project :=
  let p1 := if p.progress < 0 then { p with progress := 0 } else p
  let p2 := if p1.progress > 100 then { p1 with progress := 100 } else p1
  if p2.progress = 100 ∧ p2.status ≠ .completed then
    { p2 with status := .completed }
  else if p2.progress > 0 ∧ p2.status = .planning then
    { p2 with status := .active }
  else p2

/-- ProjectSchema.methods.addMember: throw when the user already appears in
the members list, else push a members entry and this.save() (which runs the
project pre-save middleware). -/
def Project.addMember (now : Nat) (p : Project) (userId : Nat) (role : Role) :
    Except String Project :=
  if p.members.any (fun m => m.user == userId) then
    .error "User is already a member of this project"
  else
    .ok (Project.preSave
      { p with members := p.members ++ [⟨userId, role, now⟩] })

/-- ProjectSchema.methods.removeMember: filter the user out of the members
list and this.save() (which runs the project pre-save middleware). It never
throws by itself. -/
def Project.removeMember (p : Project) (userId : Nat) : Project :=
  Project.preSave { p with members := p.members.filter (fun m => !(m.user == userId)) }

/-- HTTP error classes the modelled route handlers distinguish:
badRequest is 400, unauthorized 401, forbidden 403, notFound 404, and
serverError the 500 a route's catch block produces, in particular for a
mongoose ValidationError raised by update validators. -/
inductive HttpError where
  | badRequest
  | unauthorized
  | forbidden
  | notFound
  | serverError
deriving DecidableEq, Repr

/-- Body fields of a task-update request that the embedding tracks (the
route also copies title, description, priority, category, dates, hours and
labels, which the verified claims never consult; the modelled request is
taken to carry a valid title, which the non-optional express-validator
title rule demands, and none of the other optional fields, so the
express-validator step passes and the only remaining rejection is the
schema bound on progress enforced by runValidators). A none field was
absent from the request body. -/
structure TaskUpdate where
  status : Option TaskStatus
  progress : Option Nat
  assignee : Option Nat
deriving DecidableEq, Repr

/-- Field writes performed by Task.findByIdAndUpdate in the PUT route: set
exactly the fields present in the update object; no save middleware runs. -/
def applyTaskUpdates (t : Task) (u : TaskUpdate) : Task :=
  { t with
    status := u.status.getD t.status
    progress := u.progress.getD t.progress
    assignee := match u.assignee with
      | some a => some a
      | none => t.assignee }

/-- Task.findByIdAndUpdate with runValidators true: the Task schema bounds
progress to at most 100 (its minimum 0 is inherent to the Nat model), so a
requested progress above 100 raises a mongoose ValidationError, which the
route's catch block maps to a 500 response; otherwise the tracked fields
are written, with no save middleware running. -/
def findByIdAndUpdateTask (t : Task) (u : TaskUpdate) :
    Except HttpError Task :=
  match u.progress with
  | some pr =>
    if pr > 100 then .error .serverError else .ok (applyTaskUpdates t u)
  | none => .ok (applyTaskUpdates t u)

/-- PUT /api/tasks/:id handler (src/backend/routes/tasks.js), after the
task was found: a missing or non-member-containing project yields 403, a
requested assignee who is not a member yields 400, else the task is
updated via findByIdAndUpdate with runValidators (an out-of-range progress
therefore yields the catch block's 500). -/
def putTask (findProject : Option Project) (t : Task) (requesterId : Nat)
    (upd : TaskUpdate) : Except HttpError Task :=
  match findProject with
  | none => .error .forbidden
  | some p =>
    if ¬ p.isMember requesterId then .error .forbidden
    else
      match upd.assignee with
      | some a =>
        if ¬ p.isMember a then .error .badRequest
        else findByIdAndUpdateTask t upd
      | none => findByIdAndUpdateTask t upd

/-- The spec's canEditTask predicate, stated from the spec's words: the
requester is the task's creator or holds role owner or admin on the parent
project. Used only to compare the spec against the route's actual check. -/
def canEditTaskSpec (p : Project) (t : Task) (requesterId : Nat) : Bool :=
  t.creator == requesterId
    || p.getUserRole requesterId == some .owner
    || p.getUserRole requesterId == some .admin

/-- DELETE /api/projects/:id/members/:userId handler
(src/backend/routes/projects.js), after the project was found: a requester
who is neither removing themselves nor owner/admin yields 403; a target
equal to the project owner yields 400 "Cannot remove project owner"; else
removeMember runs. -/
def removeMemberRoute (p : Project) (requesterId targetId : Nat) :
    Except HttpError Project :=
  let userRole := p.getUserRole requesterId
  let isRemovingSelf := targetId = requesterId
  if ¬ isRemovingSelf ∧ ¬ (userRole = some .owner ∨ userRole = some .admin) then
    .error .forbidden
  else if p.owner = targetId then
    .error .badRequest
  else
    .ok (p.removeMember targetId)

/-- Dashboard completionRate (src/backend/routes/auth.js): with at least
one task, Math.round((completedTasks / totalTasks) * 100), else 0. -/
def completionRate (completedTasks totalTasks : Nat) : Nat :=
  if totalTasks > 0 then jsRound (completedTasks * 100) totalTasks else 0

/-- Dashboard overdueRate: with at least one task,
Math.round((overdueTasks / totalTasks) * 100), else 0. -/
def overdueRate (overdueTasks totalTasks : Nat) : Nat :=
  if totalTasks > 0 then jsRound (overdueTasks * 100) totalTasks else 0

/-- Dashboard productivity: Math.max(0, completionRate - overdueRate),
computed on integers. -/
def productivity (completionRateVal overdueRateVal : Nat) : Int :=
  max 0 ((completionRateVal : Int) - (overdueRateVal : Int))

/-! Helper lemmas about the embedded operations. -/

/-- The task pre-save middleware never changes the status field. -/
theorem Task.preSave_status (now : Nat) (m : Bool) (t : Task) :
    (Task.preSave now m t).status = t.status := by
  obtain ⟨pr, cr, asg, st, pg, sub, ca, sa⟩ := t
  simp only [Task.preSave]
  split_ifs <;> rfl

/-- The task pre-save middleware never changes the subtasks list. -/
theorem Task.preSave_subtasks (now : Nat) (m : Bool) (t : Task) :
    (Task.preSave now m t).subtasks = t.subtasks := by
  obtain ⟨pr, cr, asg, st, pg, sub, ca, sa⟩ := t
  simp only [Task.preSave]
  split_ifs <;> rfl

/-- Progress after the task pre-save middleware: 100 for completed, 0 for
todo, otherwise unchanged. -/
theorem Task.preSave_progress (now : Nat) (m : Bool) (t : Task) :
    (Task.preSave now m t).progress =
      if t.status = .completed then 100
      else if t.status = .todo then 0
      else t.progress := by
  obtain ⟨pr, cr, asg, st, pg, sub, ca, sa⟩ := t
  simp only [Task.preSave]
  split_ifs <;> simp_all

/-- updateProgressFromSubtasks never changes the status field. -/
theorem Task.updateProgressFromSubtasks_status (now : Nat) (m : Bool)
    (t : Task) :
    (Task.updateProgressFromSubtasks now m t).status = t.status := by
  simp only [Task.updateProgressFromSubtasks]
  split_ifs <;> rw [Task.preSave_status]

/-- updateProgressFromSubtasks never changes the subtasks list. -/
theorem Task.updateProgressFromSubtasks_subtasks (now : Nat) (m : Bool)
    (t : Task) :
    (Task.updateProgressFromSubtasks now m t).subtasks = t.subtasks := by
  simp only [Task.updateProgressFromSubtasks]
  split_ifs <;> rw [Task.preSave_subtasks]

/-- Progress after updateProgressFromSubtasks: the status rules of the
pre-save middleware run last, over the subtask-derived value. -/
theorem Task.updateProgressFromSubtasks_progress (now : Nat) (m : Bool)
    (t : Task) :
    (Task.updateProgressFromSubtasks now m t).progress =
      if t.status = .completed then 100
      else if t.status = .todo then 0
      else if t.subtasks.length > 0 then t.subtasksProgress
      else t.progress := by
  simp only [Task.updateProgressFromSubtasks]
  split_ifs with h <;> rw [Task.preSave_progress] <;> simp_all

/-- subtasksProgress depends only on the subtasks list. -/
theorem Task.subtasksProgress_congr {t t' : Task}
    (h : t.subtasks = t'.subtasks) :
    t.subtasksProgress = t'.subtasksProgress := by
  simp only [Task.subtasksProgress, Task.completedSubtasksCount, h]

/-- The project pre-save middleware never changes the members list. -/
theorem Project.preSave_members (p : Project) :
    (Project.preSave p).members = p.members := by
  obtain ⟨ow, ms, st, pg⟩ := p
  simp only [Project.preSave]
  split_ifs <;> rfl

/-- jsRound is exactly round-half-up on the rational quotient. -/
theorem jsRound_eq_round (num den : Nat) (h : 0 < den) :
    (jsRound num den : ℤ) = round ((num : ℚ) / (den : ℚ)) := by
  have hden : (den : ℚ) ≠ 0 := Nat.cast_ne_zero.mpr h.ne'
  rw [round_eq]
  have hq : (num : ℚ) / (den : ℚ) + 1 / 2 =
      ((2 * num + den : ℕ) : ℚ) / ((2 * den : ℕ) : ℚ) := by
    push_cast
    field_simp
    ring
  rw [hq, ← Int.natCast_floor_eq_floor (by positivity),
    Nat.floor_div_eq_div]
  rfl

/-! Concrete fixture documents used by counterexamples and witnesses. -/

/-- A project owned by user 1 with user 2 as a viewer-role member. -/
def exViewerProject : Project := ⟨1, [⟨2, .viewer, 0⟩], .active, 0⟩

/-- A todo task in that project, created by the owner (user 1). -/
def exTaskByOwner : Task := ⟨5, 1, none, .todo, 0, [], none, none⟩

/-- A task-update request body that only changes the status field. -/
def exStatusUpd : TaskUpdate := ⟨some .inProgress, none, none⟩

/-- An in-progress task whose progress already reads 100. -/
def exInProgress100 : Task := ⟨5, 1, none, .inProgress, 100, [], none, some 0⟩

/-- A task at progress 40. -/
def exTask40 : Task := ⟨5, 1, none, .inProgress, 40, [], none, none⟩

/-- A task at progress 60. -/
def exTask60 : Task := ⟨5, 1, none, .inProgress, 60, [], none, none⟩

/-- A fresh todo task with no timestamps set. -/
def exFreshTask : Task := ⟨5, 1, none, .todo, 0, [], none, none⟩

/-- A save event that writes status completed at time 42. -/
def exCompleteEvent : SaveEvent := ⟨some .completed, 42⟩

/-- A project owned by user 7 with an empty members list. -/
def exOwnerOnlyProject : Project := ⟨7, [], .planning, 0⟩

/-- The project produced by adding user 9 to exOwnerOnlyProject. -/
def exDupProject : Project :=
  Project.preSave
    { exOwnerOnlyProject with
      members := exOwnerOnlyProject.members ++ [⟨9, .member, 1⟩] }

/-- A todo task with three subtasks, one of them completed. -/
def exSubtaskTodoTask : Task :=
  ⟨5, 1, none, .todo, 5, [⟨"a", true, 0⟩, ⟨"b", false, 0⟩, ⟨"c", false, 0⟩],
    none, none⟩

/-- An in-progress task with three subtasks, one of them completed. -/
def exSubtaskActiveTask : Task :=
  ⟨5, 1, none, .inProgress, 5,
    [⟨"a", true, 0⟩, ⟨"b", false, 0⟩, ⟨"c", false, 0⟩], none, some 0⟩

/-- A planning-status project at progress 0 with no members. -/
def exPlanningProject : Project := ⟨1, [], .planning, 0⟩

/-- A completed task at progress 100. -/
def exDoneTask : Task := ⟨5, 1, none, .completed, 100, [], some 0, none⟩

/-- A completed-status task whose progress field still reads 20. -/
def exCompletedSaveTask : Task := ⟨5, 1, none, .completed, 20, [], none, none⟩

/-! Claim theorems. -/

/-- C1, counterexample: user 2 is a viewer-role member of the project and
not the task's creator, so the claimed canEditTask rule denies the update;
the PUT route nevertheless accepts it, because its only check is
project.isMember. -/
theorem putTask_claim_false_for_viewer :
    ¬ (((putTask (some exViewerProject) exTaskByOwner 2 exStatusUpd).isOk
          = true) ↔
        canEditTaskSpec exViewerProject exTaskByOwner 2 = true) := by
  decide

/-- C1, amended: the task-update route succeeds iff the requester passes
project.isMember (owner or any members-list entry, role ignored, creator
not consulted), any requested assignee is also a member, and any requested
progress respects the schema bound of 100 enforced by runValidators; it
returns the 403 authorization error exactly when the requester is not a
member. -/
theorem putTask_isOk_iff_isMember (p : Project) (t : Task)
    (requesterId : Nat) (upd : TaskUpdate) :
    ((putTask (some p) t requesterId upd).isOk = true ↔
      (p.isMember requesterId = true ∧
        (∀ a, upd.assignee = some a → p.isMember a = true) ∧
        (∀ pr, upd.progress = some pr → pr ≤ 100))) ∧
    (putTask (some p) t requesterId upd = .error .forbidden ↔
      p.isMember requesterId = false) := by
  obtain ⟨us, up, ua⟩ := upd
  cases h : p.isMember requesterId
  · cases ua <;>
      simp [putTask, h, Except.isOk, Except.toBool]
  · cases ua with
    | none =>
      cases up with
      | none =>
        simp [putTask, findByIdAndUpdateTask, h, Except.isOk,
          Except.toBool]
      | some pr =>
        by_cases hpr : pr > 100 <;>
          simp [putTask, findByIdAndUpdateTask, h, hpr, Except.isOk,
            Except.toBool]
        omega
    | some a =>
      cases ha : p.isMember a
      · simp [putTask, h, ha, Except.isOk, Except.toBool]
      · cases up with
        | none =>
          simp [putTask, findByIdAndUpdateTask, h, ha, Except.isOk,
            Except.toBool]
        | some pr =>
          by_cases hpr : pr > 100 <;>
            simp [putTask, findByIdAndUpdateTask, h, ha, hpr,
              Except.isOk, Except.toBool]
          omega

/-- C1 witness: instantiation of the amended theorem at the viewer-member
project. -/
theorem putTask_isOk_iff_isMember_witness :
    (putTask (some exViewerProject) exTaskByOwner 2 exStatusUpd).isOk
      = true :=
  (putTask_isOk_iff_isMember exViewerProject exTaskByOwner 2
      exStatusUpd).1.mpr
    (And.intro (by decide)
      (And.intro (fun a ha => by cases ha) (fun pr hpr => by cases hpr)))

/-- C2, counterexample: saving an in-progress task whose progress field
reads 100 keeps progress at 100 while the status stays in-progress, so
after the save progress 100 does not imply status completed. -/
theorem preSave_progress100_not_iff_completed :
    ¬ (((Task.preSave 0 false exInProgress100).progress = 100) ↔
        ((Task.preSave 0 false exInProgress100).status = .completed)) := by
  decide

/-- C2, amended: after any task save, status completed forces progress 100
and status todo forces progress 0; the converse direction of the claimed
iff (progress 100 only when completed) does not hold. -/
theorem preSave_status_progress_invariant (t : Task) (now : Nat)
    (m : Bool) :
    ((Task.preSave now m t).status = .completed →
      (Task.preSave now m t).progress = 100) ∧
    ((Task.preSave now m t).status = .todo →
      (Task.preSave now m t).progress = 0) := by
  rw [Task.preSave_status, Task.preSave_progress]
  constructor <;> intro h <;> simp [h]

/-- C2 witness: the invariant applied to a completed-status save. -/
theorem preSave_status_progress_invariant_witness :
    (Task.preSave 0 true exCompletedSaveTask).progress = 100 :=
  (preSave_status_progress_invariant exCompletedSaveTask 0 true).1
    (by decide)

/-- C3: after a task save, with at least one stored task in the project the
project progress becomes the arithmetic mean of the tasks' progress values
rounded half-up to the nearest integer; with zero tasks the project is left
unchanged; and for two tasks at progress 40 and 60 the recomputed progress
is 50. -/
theorem taskPostSave_mean (p : Project) (ts : List Task) :
    (ts.length > 0 →
      (taskPostSave ts p).progress =
        round (((ts.map Task.progress).sum : ℚ) / (ts.length : ℚ))) ∧
    (ts.length = 0 → taskPostSave ts p = p) ∧
    (taskPostSave [exTask40, exTask60] p).progress = 50 := by
  refine ⟨fun h => ?_, fun h => ?_, ?_⟩
  · simp only [taskPostSave, if_pos h]
    exact jsRound_eq_round _ _ h
  · simp [taskPostSave, h]
  · simp [taskPostSave, exTask40, exTask60, jsRound]

/-- C3 witness: the mean formula applied to the two-task scenario. -/
theorem taskPostSave_mean_witness :
    ([exTask40, exTask60] : List Task).length > 0 ∧
    (taskPostSave [exTask40, exTask60] exPlanningProject).progress =
      round ((([exTask40, exTask60].map Task.progress).sum : ℚ) /
        (([exTask40, exTask60] : List Task).length : ℚ)) :=
  ⟨by decide,
    (taskPostSave_mean exPlanningProject [exTask40, exTask60]).1
      (by decide)⟩

/-- completedAt after the task pre-save middleware: stamped at now exactly
when the status field was modified to completed while completedAt was
unset, otherwise unchanged. -/
theorem Task.preSave_completedAt (now : Nat) (m : Bool) (t : Task) :
    (Task.preSave now m t).completedAt =
      if m = true ∧ t.status = .completed ∧ t.completedAt = none
      then some now else t.completedAt := by
  obtain ⟨pr, cr, asg, st, pg, sub, ca, sa⟩ := t
  simp only [Task.preSave]
  split_ifs <;> simp_all

/-- A completedAt value survives any single save event. -/
theorem Task.applySave_completedAt_some {t : Task} {c : Nat}
    (h : t.completedAt = some c) (e : SaveEvent) :
    (t.applySave e).completedAt = some c := by
  obtain ⟨s, n⟩ := e
  cases s <;> simp_all [Task.applySave, Task.preSave_completedAt]

/-- C4: completedAt is assigned (with the save time) on a save exactly when
that save writes status completed while completedAt is unset, and once set
it survives every later sequence of saves unchanged. -/
theorem completedAt_write_once (t : Task) (e : SaveEvent) (c : Nat)
    (es : List SaveEvent) :
    (t.completedAt = none →
      ((t.applySave e).completedAt = some e.now ↔
        e.setStatus = some .completed)) ∧
    (t.completedAt = some c →
      (es.foldl Task.applySave t).completedAt = some c) := by
  constructor
  · intro hnone
    obtain ⟨s, n⟩ := e
    cases s with
    | none => simp [Task.applySave, Task.preSave_completedAt, hnone]
    | some st =>
      cases hst : decide (st = TaskStatus.completed) <;>
        simp_all [Task.applySave, Task.preSave_completedAt, hnone]
  · induction es generalizing t with
    | nil => intro h; simpa using h
    | cons e' es' ih =>
      intro h
      exact ih _ (Task.applySave_completedAt_some h e')

/-- C4 witness: a fresh task saved with status completed at time 42 gets
completedAt 42. -/
theorem completedAt_write_once_witness :
    exFreshTask.completedAt = none ∧
    (exFreshTask.applySave exCompleteEvent).completedAt =
      some exCompleteEvent.now :=
  ⟨rfl,
    ((completedAt_write_once exFreshTask exCompleteEvent 0 []).1
        rfl).mpr rfl⟩

/-- C5, counterexample: the duplicate check of addMember scans only the
members list, so adding the project's owner (user 7, absent from the
members list) succeeds instead of failing with a duplicate-member error. -/
theorem addMember_accepts_owner :
    exOwnerOnlyProject.owner = 7 ∧
    (Project.addMember 0 exOwnerOnlyProject 7 .admin).isOk = true := by
  constructor
  · rfl
  · rfl

/-- C5, amended: addMember fails with the duplicate error exactly when the
user already appears in the members list (the owner is not covered by the
check), and after a successful add a second add of the same user always
fails. -/
theorem addMember_dup_iff_in_members (p : Project) (userId : Nat)
    (role : Role) (now : Nat) :
    ((Project.addMember now p userId role).isOk = true ↔
      p.members.any (fun m => m.user == userId) = false) ∧
    (∀ p', Project.addMember now p userId role = .ok p' →
      ∀ now' role',
        (Project.addMember now' p' userId role').isOk = false) := by
  constructor
  · cases h : p.members.any (fun m => m.user == userId) <;>
      simp [Project.addMember, h, Except.isOk, Except.toBool]
  · intro p' h now' role'
    simp only [Project.addMember] at h
    split_ifs at h with hc
    rw [Except.ok.injEq] at h
    subst h
    have hmem :
        (Project.preSave
            { p with
              members := p.members ++ [⟨userId, role, now⟩] }).members.any
          (fun m => m.user == userId) = true := by
      rw [Project.preSave_members]
      simp
    simp [Project.addMember, hmem, Except.isOk, Except.toBool]

/-- C5 witness: adding user 9 once succeeds, adding them again fails. -/
theorem addMember_dup_iff_in_members_witness :
    (Project.addMember 3 exDupProject 9 .viewer).isOk = false :=
  (addMember_dup_iff_in_members exOwnerOnlyProject 9 .member 1).2
    exDupProject rfl 3 .viewer

/-- C6, counterexample: when a viewer-role member (user 2) asks to remove
the owner (user 1), the route fails with the 403 authorization error, not
with the conflict error the claim promises for every requester. -/
theorem removeOwner_forbidden_for_viewer :
    removeMemberRoute exViewerProject 2 exViewerProject.owner =
      .error .forbidden ∧
    HttpError.forbidden ≠ HttpError.badRequest := by
  constructor
  · rfl
  · decide

/-- C6, amended: removing the owner always fails, leaving the project
untouched, but the error kind depends on the requester: the conflict-style
400 "Cannot remove project owner" when the requester holds role owner or
admin (which includes the owner removing themselves), and the 403
authorization error otherwise. -/
theorem removeOwner_always_fails (p : Project) (requesterId : Nat) :
    (removeMemberRoute p requesterId p.owner).isOk = false ∧
    ((p.getUserRole requesterId = some .owner ∨
        p.getUserRole requesterId = some .admin) →
      removeMemberRoute p requesterId p.owner = .error .badRequest) ∧
    (¬ (p.getUserRole requesterId = some .owner ∨
        p.getUserRole requesterId = some .admin) →
      removeMemberRoute p requesterId p.owner = .error .forbidden) := by
  by_cases hC : p.getUserRole requesterId = some .owner ∨
      p.getUserRole requesterId = some .admin
  · have hroute : removeMemberRoute p requesterId p.owner =
        .error .badRequest := by
      simp only [removeMemberRoute]
      rw [if_neg fun hcontra => hcontra.2 hC]
      simp
    exact ⟨by rw [hroute]; rfl, fun _ => hroute, fun hn => absurd hC hn⟩
  · have hself : ¬ p.owner = requesterId := by
      intro hs
      exact hC (Or.inl (by simp [Project.getUserRole, hs]))
    have hroute : removeMemberRoute p requesterId p.owner =
        .error .forbidden := by
      simp only [removeMemberRoute]
      rw [if_pos ⟨hself, hC⟩]
    exact ⟨by rw [hroute]; rfl, fun hc => absurd hc hC, fun _ => hroute⟩

/-- C6 witness: the amended rule applied to the viewer-role requester. -/
theorem removeOwner_always_fails_witness :
    removeMemberRoute exViewerProject 2 exViewerProject.owner =
      .error .forbidden :=
  (removeOwner_always_fails exViewerProject 2).2.2 (by decide)

/-- C7, counterexample: on a todo task with three subtasks, one completed,
the claimed post-state progress is 33, but the save run by
updateProgressFromSubtasks applies the status rules last and the task ends
at progress 0. -/
theorem updateProgressFromSubtasks_todo_overridden :
    (Task.updateProgressFromSubtasks 0 false exSubtaskTodoTask).progress
      = 0 ∧
    exSubtaskTodoTask.subtasksProgress = 33 ∧
    (Task.updateProgressFromSubtasks 0 false exSubtaskTodoTask).progress
      ≠ exSubtaskTodoTask.subtasksProgress := by
  decide

/-- C7, amended: updateProgressFromSubtasks assigns the rounded subtask
ratio only to survive the save when the status is neither completed nor
todo; a completed task ends at progress 100 and a todo task at 0, because
the pre-save status rules run after the assignment; with an empty subtask
list the assignment is skipped (progress unchanged for statuses outside
completed and todo) even though subtasksProgress reads 100. The three
subtasks, one completed scenario yields progress 33 for an in-progress
task. -/
theorem updateProgressFromSubtasks_cases (t : Task) (now : Nat)
    (m : Bool) :
    (t.status = .completed →
      (Task.updateProgressFromSubtasks now m t).progress = 100) ∧
    (t.status = .todo →
      (Task.updateProgressFromSubtasks now m t).progress = 0) ∧
    (t.status ≠ .completed → t.status ≠ .todo →
      ((t.subtasks.length > 0 →
        (Task.updateProgressFromSubtasks now m t).progress =
          jsRound (t.completedSubtasksCount * 100) t.subtasks.length) ∧
      (t.subtasks.length = 0 →
        (Task.updateProgressFromSubtasks now m t).progress = t.progress ∧
          t.subtasksProgress = 100))) ∧
    (Task.updateProgressFromSubtasks 0 false exSubtaskActiveTask).progress
      = 33 := by
  rw [Task.updateProgressFromSubtasks_progress]
  refine ⟨fun h => by simp [h], fun h => by simp [h],
    fun h1 h2 => ⟨fun h3 => ?_, fun h3 => ?_⟩, by decide⟩
  · rw [if_neg h1, if_neg h2, if_pos h3]
    simp only [Task.subtasksProgress]
    rw [if_neg (Nat.pos_iff_ne_zero.mp h3)]
  · refine ⟨by rw [if_neg h1, if_neg h2, if_neg (by omega)], ?_⟩
    simp only [Task.subtasksProgress]
    rw [if_pos h3]

/-- C7 witness: the amended rule applied to the in-progress scenario task
with three subtasks, one completed. -/
theorem updateProgressFromSubtasks_cases_witness :
    (Task.updateProgressFromSubtasks 0 false exSubtaskActiveTask).progress
      = jsRound (exSubtaskActiveTask.completedSubtasksCount * 100)
          exSubtaskActiveTask.subtasks.length ∧
    jsRound (exSubtaskActiveTask.completedSubtasksCount * 100)
      exSubtaskActiveTask.subtasks.length = 33 :=
  ⟨((updateProgressFromSubtasks_cases exSubtaskActiveTask 0
        false).2.2.1 (by decide) (by decide)).1 (by decide),
    by decide⟩

/-- C8: calling updateProgressFromSubtasks twice in a row, with nothing
modified in between, yields the same progress value as calling it once. -/
theorem updateProgressFromSubtasks_idempotent (t : Task)
    (now₁ now₂ : Nat) (m : Bool) :
    (Task.updateProgressFromSubtasks now₂ false
        (Task.updateProgressFromSubtasks now₁ m t)).progress =
      (Task.updateProgressFromSubtasks now₁ m t).progress := by
  have hsub := Task.updateProgressFromSubtasks_subtasks now₁ m t
  have hsp := Task.subtasksProgress_congr hsub
  have hst := Task.updateProgressFromSubtasks_status now₁ m t
  rw [Task.updateProgressFromSubtasks_progress now₂ false, hsp, hst, hsub]
  split_ifs <;> simp_all [Task.updateProgressFromSubtasks_progress]

/-- C9: with zero total tasks both dashboard rates are 0 (the division
branch is never taken), and productivity is never negative for any rate
values. -/
theorem dashboard_rates_zero_safe (completedTasks overdueTasks totalTasks
    crVal odVal : Nat) :
    (totalTasks = 0 →
      completionRate completedTasks totalTasks = 0 ∧
      overdueRate overdueTasks totalTasks = 0) ∧
    0 ≤ productivity crVal odVal := by
  constructor
  · intro h
    subst h
    simp [completionRate, overdueRate]
  · exact le_max_left 0 _

/-- C9 witness: the zero-task case evaluated at totals 0. -/
theorem dashboard_rates_zero_safe_witness :
    completionRate 0 0 = 0 ∧ overdueRate 0 0 = 0 :=
  (dashboard_rates_zero_safe 0 0 0 0 0).1 rfl

/-- C10, counterexample: the task-driven progress write
(Project.findByIdAndUpdate) bypasses the project save middleware, so a
planning project whose only task is at progress 100 gets progress 100 with
status still planning; a genuine document save of that state would have
promoted the status to completed. -/
theorem taskPostSave_does_not_promote_status :
    (taskPostSave [exDoneTask] exPlanningProject).progress = 100 ∧
    (taskPostSave [exDoneTask] exPlanningProject).status = .planning ∧
    (Project.preSave (taskPostSave [exDoneTask] exPlanningProject)).status
      = .completed := by
  decide

/-- C10, amended: on every project document save the progress is clamped
into [0, 100] (an in-range value is kept as is) and the status is then
auto-promoted (progress 100 forces completed; a planning status survives
only at progress 0); but the task-driven recomputation writes progress via
findByIdAndUpdate, which runs no save middleware, so it never changes the
project status. -/
theorem projectPreSave_clamps_and_promotes (p : Project)
    (ts : List Task) :
    0 ≤ (Project.preSave p).progress ∧
    (Project.preSave p).progress ≤ 100 ∧
    ((Project.preSave p).progress = 100 →
      (Project.preSave p).status = .completed) ∧
    ((Project.preSave p).status = .planning →
      (Project.preSave p).progress = 0) ∧
    (0 ≤ p.progress → p.progress ≤ 100 →
      (Project.preSave p).progress = p.progress) ∧
    (taskPostSave ts p).status = p.status := by
  obtain ⟨ow, ms, st, pg⟩ := p
  refine ⟨?_, ?_, ?_, ?_, ?_, ?_⟩
  · simp only [Project.preSave]
    split_ifs <;> simp_all
  · simp only [Project.preSave]
    split_ifs <;> simp_all
  · simp only [Project.preSave]
    split_ifs <;> intro hq <;> simp_all
  · simp only [Project.preSave]
    split_ifs <;> intro hq <;> simp_all
    omega
  · intro h0 h100
    simp only [Project.preSave]
    split_ifs <;> simp_all <;> omega
  · simp only [taskPostSave]
    split_ifs <;> rfl

/-- C10 witness: an in-range progress value is preserved by the project
save middleware. -/
theorem projectPreSave_clamps_and_promotes_witness :
    (Project.preSave exViewerProject).progress =
      exViewerProject.progress :=
  (projectPreSave_clamps_and_promotes exViewerProject []).2.2.2.2.1
    (by decide) (by decide)

end TaskFlow
